import Mathlib

/-!
Verification of the hash-chained audit-ledger core of the e24 administrative
vault application.

The development shallowly embeds the TypeScript core in Lean:

* `canonicalize` embeds the deterministic JSON canonicalizer of
  `services/crypto` (sorted object keys, `undefined` fields omitted, arrays
  order-preserving, root `null`/`undefined` rendered as the literal `null`).
* `verifyLedger`/`checkEntries` embed the ledger verification algorithm.
* `drainList`/`processQueue`/`addAuditEvent`/`addBFO` embed the append queue
  of `App.tsx`.
* `generateKeyPair` embeds the persistent-keypair loader.
* `handleCommit` embeds the commitment-object (BFO) finalization flow of the
  BFO engine component.
* `clearAll`/`forceRestart` embed the persistence wipe used by the emergency
  reset.

The SHA-256 digest itself is an opaque cryptographic primitive of the
WebCrypto API; the development is parameterized over the digest function
`H : String → String` (collision-freeness is an explicit injectivity
hypothesis where a claim needs it).  Where the source may *throw* from the
digest pipeline, the fallible digest is modelled as `Hf : String → Option
String`, `none` modelling a thrown exception.
-/

/-- A JSON-like value as handled by the canonicalizer: the distinction
between `undef` (JavaScript `undefined`, omitted from objects) and `null`
is semantically load-bearing.  `date` models a `Date` instance via its wire
(ISO string) serialization; `num` models numeric values (restricted to
integers; the claims do not exercise float formatting). -/
inductive JVal where
  | undef : JVal
  | null : JVal
  | bool : Bool → JVal
  | num : Int → JVal
  | str : String → JVal
  | date : String → JVal
  | arr : List JVal → JVal
  | obj : List (String × JVal) → JVal

/-- Hexadecimal digit character (lowercase), as produced by
`b.toString(16)` in the digest formatter and by JSON `\uXXXX` escapes. -/
def hexDigit (n : Nat) : Char :=
  if n < 10 then Char.ofNat (48 + n) else Char.ofNat (87 + n)

/-- Four-digit hexadecimal rendering used by JSON `\u00XX` control escapes. -/
def hex4 (n : Nat) : String :=
  String.mk [hexDigit (n / 4096 % 16), hexDigit (n / 256 % 16),
    hexDigit (n / 16 % 16), hexDigit (n % 16)]

/-- Escaping of a single character inside a JSON string literal, as
performed by `JSON.stringify` on strings. -/
def escapeChar (c : Char) : String :=
  if c = '"' then "\\\""
  else if c = '\\' then "\\\\"
  else if c = '\n' then "\\n"
  else if c = '\r' then "\\r"
  else if c = '\t' then "\\t"
  else if c = '\x08' then "\\b"
  else if c = '\x0c' then "\\f"
  else if c.toNat < 32 then "\\u" ++ hex4 c.toNat
  else String.mk [c]

/-- `JSON.stringify` applied to a string: double quotes around the escaped
character sequence. -/
def jsonQuote (s : String) : String :=
  "\"" ++ String.join (s.data.map escapeChar) ++ "\""

/-- Code-unit-wise lexicographic `≤` on character sequences: the comparison
underlying JavaScript's default `Array.prototype.sort()` on string keys
(`Object.keys(data).sort()` in the canonicalizer). -/
def charsLe : List Char → List Char → Bool
  | [], _ => true
  | _ :: _, [] => false
  | a :: as, b :: bs =>
    if a.toNat < b.toNat then true
    else if b.toNat < a.toNat then false
    else charsLe as bs

/-- Order on canonicalized object fields (key, optional rendered value):
compare by key with the JavaScript string order. -/
def keyLe (a b : String × Option String) : Prop :=
  charsLe a.1.data b.1.data = true

instance : DecidableRel keyLe :=
  fun a b => inferInstanceAs (Decidable (_ = true))

instance : IsTotal (String × Option String) keyLe :=
  ⟨by
    have total : ∀ as bs, charsLe as bs = true ∨ charsLe bs as = true := by
      intro as
      induction as with
      | nil => intro bs; left; rfl
      | cons a as ih =>
        intro bs
        cases bs with
        | nil => right; rfl
        | cons b bs =>
          by_cases h₁ : a.toNat < b.toNat
          · left; simp [charsLe, h₁]
          · by_cases h₂ : b.toNat < a.toNat
            · right; simp [charsLe, h₂]
            · rcases ih bs with h | h
              · left; simp [charsLe, h₁, h₂, h]
              · right; simp [charsLe, h₁, h₂, h]
    exact fun a b => total a.1.data b.1.data⟩

instance : IsTrans (String × Option String) keyLe :=
  ⟨by
    have tr : ∀ as bs cs, charsLe as bs = true → charsLe bs cs = true →
        charsLe as cs = true := by
      intro as
      induction as with
      | nil => intro bs cs _ _; rfl
      | cons a as ih =>
        intro bs cs h₁ h₂
        cases bs with
        | nil => simp [charsLe] at h₁
        | cons b bs =>
          cases cs with
          | nil => simp [charsLe] at h₂
          | cons c cs =>
            simp only [charsLe] at h₁ h₂ ⊢
            split_ifs at h₁ h₂ ⊢ with hab hba hbc
            all_goals try rfl
            all_goals try omega
            all_goals first
              | (exact ih bs cs h₁ h₂)
              | omega
    exact fun a b c h₁ h₂ => tr a.1.data b.1.data c.1.data h₁ h₂⟩

/-- Rendering of one canonicalized field: `"key":value`, or nothing when the
value was `undefined` (`if (val === undefined) continue;` in the source). -/
def emitPart (p : String × Option String) : Option String :=
  p.2.map (fun s => jsonQuote p.1 ++ ":" ++ s)

/-- `Object.keys(data).sort()` followed by emission of the defined fields:
sort the canonicalized fields by key, then keep the rendered defined ones. -/
def sortParts (parts : List (String × Option String)) : List String :=
  (List.insertionSort keyLe parts).filterMap emitPart

mutual

/-- The deterministic JSON canonicalizer `canonicalize` of
`services/crypto.ts`: `undefined`/`null` become the literal `null`,
primitives go through `JSON.stringify`, arrays preserve element order,
`Date` values serialize as quoted strings, and plain objects are emitted
with lexicographically sorted keys, skipping fields whose value is
`undefined`. -/
def canonicalize : JVal → String
  | JVal.undef => "null"
  | JVal.null => "null"
  | JVal.bool b => if b then "true" else "false"
  | JVal.num n => toString n
  | JVal.str s => jsonQuote s
  | JVal.date s => jsonQuote s
  | JVal.arr xs => "[" ++ String.intercalate "," (canonList xs) ++ "]"
  | JVal.obj fields =>
    "\x7b" ++ String.intercalate "," (sortParts (canonFields fields)) ++ "\x7d"

/-- Element-wise canonicalization of an array
(`data.map(item => canonicalize(item))`). -/
def canonList : List JVal → List String
  | [] => []
  | x :: xs => canonicalize x :: canonList xs

/-- Canonicalization of each object field's value, recording `undefined`
values as `none` so they can be omitted at emission time. -/
def canonFields : List (String × JVal) → List (String × Option String)
  | [] => []
  | (k, JVal.undef) :: rest => (k, none) :: canonFields rest
  | (k, v) :: rest => (k, some (canonicalize v)) :: canonFields rest

end

/-- The per-value form of `canonFields`: `undefined` maps to `none`, any
other value canonicalizes. -/
def canonField (v : JVal) : Option String :=
  match v with
  | JVal.undef => none
  | v => some (canonicalize v)

/-- `computeHash` of `services/crypto.ts`: digest of the canonical JSON
form.  `H` stands for the (async, opaque) SHA-256 hex formatter `sha256`. -/
def computeHash (H : String → String) (v : JVal) : String :=
  H (canonicalize v)

/-- An audit-ledger entry (`AuditEvent` of `types.ts`).  `actor` and
`action` are string-enumeration values in the source and are embedded as
strings; `metadata` is embedded as a generic JSON value since hashing
treats it generically. -/
structure AuditEvent where
  id : String
  timestamp : String
  actor : String
  action : String
  details : String
  hash : String
  previousHash : String
  rationale : Option String
  metadata : JVal
  signature : Option String

/-- `s.substring(0, n)` on a JavaScript string: the first `n` characters. -/
def substringTo (s : String) (n : Nat) : String :=
  String.mk (s.data.take n)

/-- The recomputed payload object built by `verifyLedger` for an entry:
`{previousHash, timestamp, actor, action, details, rationale: r || '',
metadata, signature: s || ''}`. -/
def payloadObj (e : AuditEvent) : JVal :=
  JVal.obj [("previousHash", JVal.str e.previousHash),
    ("timestamp", JVal.str e.timestamp),
    ("actor", JVal.str e.actor),
    ("action", JVal.str e.action),
    ("details", JVal.str e.details),
    ("rationale", JVal.str (e.rationale.getD "")),
    ("metadata", e.metadata),
    ("signature", JVal.str (e.signature.getD ""))]

/-- Result record of `verifyLedger`. -/
structure VerifyResult where
  valid : Bool
  errorIndex : Int
  errorMsg : Option String
deriving DecidableEq

/-- The verification loop body of `verifyLedger`, walking the oldest-first
list with the running index `i` and the previous entry's hash (`none` at
the genesis position): recompute the digest and compare to the stored
`hash`; at index 0 require `previousHash == 'GENESIS'`; later require
`previousHash` to match the predecessor's `hash`. -/
def checkEntries (H : String → String) :
    List AuditEvent → Nat → Option String → VerifyResult
  | [], _, _ => ⟨true, -1, none⟩
  | e :: rest, i, prev =>
    let calculatedHash := computeHash H (payloadObj e)
    if calculatedHash ≠ e.hash then
      ⟨false, (i : Int), some ("Hash Mismatch at Block " ++ toString i ++
        ". Stored: " ++ substringTo e.hash 8 ++ "..., Calc: " ++
        substringTo calculatedHash 8 ++ "...")⟩
    else
      match prev with
      | none =>
        if e.previousHash ≠ "GENESIS" then
          ⟨false, (i : Int), some ("Invalid Genesis PreviousHash: " ++ e.previousHash)⟩
        else checkEntries H rest (i + 1) (some e.hash)
      | some ph =>
        if e.previousHash ≠ ph then
          ⟨false, (i : Int), some ("Chain Broken at Block " ++ toString i ++
            ". PreviousHash " ++ substringTo e.previousHash 8 ++
            "... does not match Block " ++ toString (i - 1) ++ " Hash " ++
            substringTo ph 8 ++ "...")⟩
        else checkEntries H rest (i + 1) (some e.hash)

/-- `verifyLedger` of `services/crypto.ts`: takes the newest-first stored
log, trivially accepts the empty log, otherwise reverses to oldest-first
and walks the chain. -/
def verifyLedger (H : String → String) (reverseLog : List AuditEvent) : VerifyResult :=
  if reverseLog.length = 0 then ⟨true, -1, none⟩
  else checkEntries H reverseLog.reverse 0 none

/-- The hash that the entries `xs` leave as "previous hash" for whatever
follows them: the last entry's hash, or the incoming value `p` when `xs`
is empty. -/
def prevAfter (xs : List AuditEvent) (p : Option String) : Option String :=
  match xs.getLast? with
  | some e => some e.hash
  | none => p

/-- A caller-supplied event draft: an `AuditEvent` without `hash`,
`previousHash` and `timestamp` (`Omit<AuditEvent, 'hash' | 'previousHash' |
'timestamp'>` in `App.tsx`). -/
structure EventDraft where
  id : String
  actor : String
  action : String
  details : String
  rationale : Option String
  metadata : JVal
  signature : Option String

/-- The payload object hashed by the queue drain for a draft, given the
captured chain head and the stamped timestamp. -/
def draftPayload (d : EventDraft) (previousHash timestamp : String) : JVal :=
  JVal.obj [("previousHash", JVal.str previousHash),
    ("timestamp", JVal.str timestamp),
    ("actor", JVal.str d.actor),
    ("action", JVal.str d.action),
    ("details", JVal.str d.details),
    ("rationale", JVal.str (d.rationale.getD "")),
    ("metadata", d.metadata),
    ("signature", JVal.str (d.signature.getD ""))]

/-- The finished entry published by the drain: the draft completed with
timestamp, computed hash, captured previous hash, and the defaulted
rationale/signature (`eventData.rationale || ''`). -/
def mkFullEvent (d : EventDraft) (timestamp newHash previousHash : String) : AuditEvent :=
  { id := d.id, timestamp := timestamp, actor := d.actor, action := d.action,
    details := d.details, hash := newHash, previousHash := previousHash,
    rationale := some (d.rationale.getD ""), metadata := d.metadata,
    signature := some (d.signature.getD "") }

/-- The global system status of `App.tsx`. -/
inductive SystemStatus where
  | BOOTING : SystemStatus
  | ONBOARDING : SystemStatus
  | ONLINE : SystemStatus
  | HALTED : SystemStatus
deriving DecidableEq

/-- A commitment object (`BFOObject` of `types.ts`); the enumerated string
union types are embedded as strings. -/
structure BFOObject where
  id : String
  hash : String
  timestamp : String
  type : String
  status : String
  contentSummary : String
  authorityLevel : String
  governance : String
  signatures : List String
  referenceId : Option String

/-- The mutable application state relevant to the append queue: system
status and halt reason, the newest-first audit log, the commitment objects,
the pending event queue, the chain head (`latestHashRef`), the
`isProcessingQueue` flag, and a logical clock counter for timestamping. -/
structure AppState where
  systemStatus : SystemStatus
  haltReason : String
  auditLog : List AuditEvent
  bfos : List BFOObject
  queue : List EventDraft
  latestHash : String
  isProcessing : Bool
  now : Nat

/-- The `while` loop of `processQueue`, draining the queued drafts one at a
time: capture `previousHash` from the chain head, stamp the timestamp,
digest the payload, advance the head and prepend the finished entry.  A
digest failure (`Hf … = none`, modelling a throw) halts the whole system
with reason `HASHING_PIPELINE_FAILURE` and stops the drain. -/
def drainList (Hf : String → Option String) (clock : Nat → String) :
    List EventDraft → AppState → AppState
  | [], st => { st with queue := [] }
  | d :: rest, st =>
    let previousHash := st.latestHash
    let timestamp := clock st.now
    match Hf (canonicalize (draftPayload d previousHash timestamp)) with
    | none =>
      { st with
          queue := rest,
          systemStatus := SystemStatus.HALTED,
          haltReason := "HASHING_PIPELINE_FAILURE" }
    | some newHash =>
      drainList Hf clock rest
        { st with
            auditLog := mkFullEvent d timestamp newHash previousHash :: st.auditLog,
            latestHash := newHash,
            now := st.now + 1 }

/-- `processQueue` of `App.tsx`: refuse when already draining or halted,
otherwise drain the queue with the `isProcessingQueue` flag set, clearing
it afterwards.  (Sequentially, the drain empties the queue or halts, so the
`finally`-block re-invocation is a no-op.) -/
def processQueue (Hf : String → Option String) (clock : Nat → String)
    (st : AppState) : AppState :=
  if st.isProcessing || st.systemStatus = SystemStatus.HALTED then st
  else
    let r := drainList Hf clock st.queue { st with isProcessing := true }
    { r with isProcessing := false }

/-- `addAuditEvent` of `App.tsx`: refuse when halted; otherwise push the
draft onto the queue and kick the drain. -/
def addAuditEvent (Hf : String → Option String) (clock : Nat → String)
    (st : AppState) (d : EventDraft) : AppState :=
  if st.systemStatus = SystemStatus.HALTED then st
  else processQueue Hf clock { st with queue := st.queue ++ [d] }

/-- `addBFO` of `App.tsx`: refuse when halted; otherwise prepend the new
commitment object. -/
def addBFO (st : AppState) (b : BFOObject) : AppState :=
  if st.systemStatus = SystemStatus.HALTED then st
  else { st with bfos := b :: st.bfos }

/-- The `localStorage` key holding the persisted identity keypair
(`KEY_STORAGE_NAME` in `services/crypto.ts`). -/
def KEY_STORAGE_NAME : String := "e8_fiduciary_key_v1"

/-- `generateKeyPair` of `services/crypto.ts` (the `loadOrCreateKeypair`
contract).  `parse` models `JSON.parse` plus the two JWK imports (any of
which may throw, modelled by `none`); `fresh` models
`crypto.subtle.generateKey`; `serialize` models the JWK export of the fresh
pair.  Returns the resulting keypair, the new stored key material, and the
console log lines, in order. -/
def generateKeyPair {KP : Type} (parse : String → Option KP) (fresh : KP)
    (serialize : KP → String) (forceNew : Bool) (stored : Option String) :
    KP × Option String × List String :=
  match (if forceNew then none else stored) with
  | some s =>
    match parse s with
    | some kp => (kp, stored, ["e8-Crypto: Restored Persistent Identity"])
    | none =>
      (fresh, some (serialize fresh),
        ["e8-Crypto: Key Corruption Detected. Regenerating.",
         "e8-Crypto: Generated New Identity"])
  | none => (fresh, some (serialize fresh), ["e8-Crypto: Generated New Identity"])

/-- The two governance modes of the BFO engine. -/
inductive GovernanceMode where
  | SOLE_FIDUCIARY : GovernanceMode
  | JOINT_COUNCIL : GovernanceMode
deriving DecidableEq

/-- The string value of a governance mode (the TypeScript union is
string-valued). -/
def governanceModeName : GovernanceMode → String
  | GovernanceMode.SOLE_FIDUCIARY => "SOLE_FIDUCIARY"
  | GovernanceMode.JOINT_COUNCIL => "JOINT_COUNCIL"

/-- One registered council signer of the BFO engine's `councilSignatures`
state. -/
structure CouncilMember where
  id : String
  name : String
  signed : Bool
  sig : String

/-- The component state consulted by `handleCommit`: `analysis` carries the
suggested classification when an analysis is present (`none` models a null
`analysis`), `pendingAuthority` the pending authority level string. -/
structure CommitContext where
  analysis : Option String
  pendingAuthority : Option String
  hasUserKeys : Bool
  safetyInterlock : Bool
  governanceMode : GovernanceMode
  soleSignature : String
  councilSignatures : List CouncilMember
  intentInput : String
  activeReferenceId : Option String

/-- First-occurrence character replacement, as performed by JavaScript
`String.prototype.replace` with a single-character string pattern. -/
def replaceFirstChar : List Char → Char → Char → List Char
  | [], _, _ => []
  | x :: xs, c, r => if x = c then r :: xs else x :: replaceFirstChar xs c r

/-- `timestamp.slice(0, 16).replace('T', ' ')` of the BFO content
constructor. -/
def bfoTimestamp (now : String) : String :=
  String.mk (replaceFirstChar (now.data.take 16) 'T' ' ')

/-- The JSON form of the `bfoContent` object hashed by `handleCommit`
(field `referenceId` is `undefined` — hence omitted from the canonical
form — when no reference is active). -/
def bfoContentJson (id timestamp type status contentSummary authorityLevel
    governance : String) (signatures : List String)
    (referenceId : Option String) : JVal :=
  JVal.obj [("id", JVal.str id),
    ("timestamp", JVal.str timestamp),
    ("type", JVal.str type),
    ("status", JVal.str status),
    ("contentSummary", JVal.str contentSummary),
    ("authorityLevel", JVal.str authorityLevel),
    ("governance", JVal.str governance),
    ("signatures", JVal.arr (signatures.map JVal.str)),
    ("referenceId", match referenceId with
      | some r => JVal.str r
      | none => JVal.undef)]

/-- `handleCommit` of the BFO engine: refuse (returning `none`, i.e. no
commitment object and no approval audit event) unless an analysis, a
pending authority, the user keys and the safety interlock are all present;
in sole mode require a non-blank ratification signature, in council mode
require at least 2 recorded signatures; then hash the content object,
digitally sign the hash (`signFn`, `none` modelling a throw), and return
the new commitment object together with its digital signature and the
audit action that gets logged (`OVERRIDE` or `APPROVAL`). -/
def handleCommit (H : String → String) (signFn : String → Option String)
    (now bfoId : String) (st : CommitContext) :
    Option (BFOObject × String × String) :=
  if st.analysis.isNone || st.pendingAuthority.isNone || !st.hasUserKeys ||
      !st.safetyInterlock then none
  else
    let finalSigs : Option (List String) :=
      match st.governanceMode with
      | GovernanceMode.SOLE_FIDUCIARY =>
        if st.soleSignature.trim = "" then none else some [st.soleSignature]
      | GovernanceMode.JOINT_COUNCIL =>
        if (st.councilSignatures.filter (fun m => m.signed)).length < 2 then none
        else some ((st.councilSignatures.filter (fun m => m.signed)).map (fun m => m.sig))
    match finalSigs with
    | none => none
    | some finalSignatures =>
      let timestamp := bfoTimestamp now
      let contentHash := H (canonicalize (bfoContentJson bfoId timestamp
        (st.analysis.getD "") "IMMUTABLE" (substringTo st.intentInput 100)
        (st.pendingAuthority.getD "") (governanceModeName st.governanceMode)
        finalSignatures st.activeReferenceId))
      match signFn contentHash with
      | none => none
      | some digitalSignature =>
        some ({ id := bfoId,
                hash := contentHash,
                timestamp := timestamp,
                type := st.analysis.getD "",
                status := "IMMUTABLE",
                contentSummary := substringTo st.intentInput 100,
                authorityLevel := st.pendingAuthority.getD "",
                governance := governanceModeName st.governanceMode,
                signatures := finalSignatures,
                referenceId := st.activeReferenceId },
              digitalSignature,
              if st.pendingAuthority.getD "" = "OVERRIDE" then "OVERRIDE" else "APPROVAL")

/-- The local key-value store (`localStorage`), as a partial map from keys
to stored strings. -/
def Store : Type := String → Option String

/-- `localStorage.removeItem`. -/
def removeItem (s : Store) (k : String) : Store :=
  fun k' => if k' = k then none else s k'

/-- The ledger storage key (`STORAGE_KEYS.AUDIT_LOG`). -/
def AUDIT_LOG_KEY : String := "e8_ufos_audit_log_v1"

/-- The commitment-object storage key (`STORAGE_KEYS.BFOS`). -/
def BFOS_KEY : String := "e8_ufos_bfos_v1"

/-- The asset storage key (`STORAGE_KEYS.ASSETS`). -/
def ASSETS_KEY : String := "e8_ufos_assets_v1"

/-- The disclaimer-acceptance key (`STORAGE_KEYS.DISCLAIMER`). -/
def DISCLAIMER_KEY : String := "e8_disclaimer_accepted"

/-- `persistence.clearAll` of `services/persistence.ts`: remove the ledger,
commitment-object and asset keys (deliberately not the disclaimer or the
identity keypair). -/
def clearAll (s : Store) : Store :=
  removeItem (removeItem (removeItem s AUDIT_LOG_KEY) BFOS_KEY) ASSETS_KEY

/-- `forceRestart` of `App.tsx` (the emergency reset), as far as storage is
concerned: remove the disclaimer acceptance, then wipe the persisted state
(the subsequent page reload does not touch storage). -/
def forceRestart (s : Store) : Store :=
  clearAll (removeItem s DISCLAIMER_KEY)

/-- The identity digest model used for concrete witnesses: a trivially
injective stand-in for the opaque SHA-256 formatter (the development's
theorems take the digest as a parameter; witnesses instantiate it). -/
def idDigest : String → String := fun s => s

/-- Timestamp used for the concrete genesis entry. -/
def genesisTime : String := "2024-01-01T00:00:00.000Z"

/-- The genesis metadata record built by `runBootSequence` in `App.tsx`. -/
def genesisMetadata : JVal :=
  JVal.obj [("schema", JVal.str "1.0.0"),
    ("sourceType", JVal.str "SYSTEM_GENERATED"),
    ("sourceIdentity", JVal.str "ROOT_ANCHOR"),
    ("processTool", JVal.str "SHA-256"),
    ("context", JVal.obj [("version", JVal.str "1.0.0"),
      ("initialization", JVal.str "TRUE"),
      ("architecture", JVal.str "E24")])]

/-- The genesis payload hashed by `runBootSequence`. -/
def genesisPayload : JVal :=
  JVal.obj [("previousHash", JVal.str "GENESIS"),
    ("timestamp", JVal.str genesisTime),
    ("actor", JVal.str "SYSTEM"),
    ("action", JVal.str "HASHING"),
    ("details", JVal.str "GENESIS BLOCK"),
    ("rationale", JVal.str "System Initialization"),
    ("metadata", genesisMetadata),
    ("signature", JVal.str "")]

/-- The concrete genesis event of the golden path, hashed with the identity
digest model. -/
def genesisEvent : AuditEvent :=
  { id := "EVT-0000", timestamp := genesisTime, actor := "SYSTEM",
    action := "HASHING", details := "GENESIS BLOCK",
    hash := idDigest (canonicalize genesisPayload), previousHash := "GENESIS",
    rationale := some "System Initialization", metadata := genesisMetadata,
    signature := some "" }

/-- The golden-path second event draft (`actor: USER, action: HASHING,
details: test`). -/
def goldenDraft : EventDraft :=
  { id := "EVT-0001", actor := "USER", action := "HASHING", details := "test",
    rationale := none, metadata := JVal.null, signature := none }

/-- Timestamp used for the concrete second entry. -/
def goldenTime2 : String := "2024-01-01T00:00:01.000Z"

/-- The second golden-path entry, chained onto the genesis hash. -/
def goldenEvent2 : AuditEvent :=
  mkFullEvent goldenDraft goldenTime2
    (idDigest (canonicalize (draftPayload goldenDraft genesisEvent.hash goldenTime2)))
    genesisEvent.hash

/-- The golden-path 2-entry chain, stored newest-first. -/
def goldenChain : List AuditEvent := [goldenEvent2, genesisEvent]

/-- An arbitrary unrelated valid-looking hash used by the chain-break
scenario. -/
def unrelatedHash : String :=
  "0x1111111111111111111111111111111111111111111111111111111111111111"

/-- The golden chain with the second entry's `previousHash` replaced by an
unrelated valid-looking hash, without recomputing its stored `hash`. -/
def goldenTampered2 : AuditEvent :=
  { goldenEvent2 with previousHash := unrelatedHash }

/-- First fixture draft for concrete queue witnesses. -/
def draftA : EventDraft :=
  { id := "EVT-A", actor := "USER", action := "INTAKE", details := "first",
    rationale := none, metadata := JVal.null, signature := none }

/-- Second fixture draft for concrete queue witnesses. -/
def draftB : EventDraft :=
  { id := "EVT-B", actor := "USER", action := "ANALYSIS", details := "second",
    rationale := some "because", metadata := JVal.null, signature := none }

/-- An online, idle application state holding only the genesis entry. -/
def stateInit : AppState :=
  { systemStatus := SystemStatus.ONLINE, haltReason := "",
    auditLog := [genesisEvent], bfos := [], queue := [],
    latestHash := genesisEvent.hash, isProcessing := false, now := 0 }

/-- A digest model that always succeeds (identity result). -/
def someDigest : String → Option String := fun s => some s

/-- A digest model that always throws. -/
def failDigest : String → Option String := fun _ => none

/-- A logical clock rendering the counter as the timestamp. -/
def tickClock : Nat → String := fun n => toString n

/-- `stateInit` with one draft already queued. -/
def stateQueued : AppState := { stateInit with queue := [draftA] }

/-- A fixture commitment object. -/
def bfoFixture : BFOObject :=
  { id := "BFO-1", hash := "h", timestamp := "t", type := "MEMO",
    status := "IMMUTABLE", contentSummary := "s", authorityLevel := "HUMAN_SOLE",
    governance := "SOLE_FIDUCIARY", signatures := ["ABC"], referenceId := none }

set_option maxRecDepth 10000

/-! ## Canonicalizer lemmas -/

theorem charsLe_antisymm : ∀ as bs, charsLe as bs = true → charsLe bs as = true → as = bs := by
  intro as
  induction as with
  | nil =>
    intro bs _ h₂
    cases bs with
    | nil => rfl
    | cons b bs => simp [charsLe] at h₂
  | cons a as ih =>
    intro bs h₁ h₂
    cases bs with
    | nil => simp [charsLe] at h₁
    | cons b bs =>
      simp only [charsLe] at h₁ h₂
      split_ifs at h₁ h₂ with hab hba
      · omega
      · have hn : a.toNat = b.toNat := by omega
        have hc : a = b := Char.ext (UInt32.ext hn)
        rw [hc, ih bs h₁ h₂]

theorem string_data_inj {a b : String} (h : a.data = b.data) : a = b := by
  cases a
  cases b
  exact congrArg String.mk h

theorem canonFields_eq_map (l : List (String × JVal)) :
    canonFields l = l.map (fun p => (p.1, canonField p.2)) := by
  induction l with
  | nil => rfl
  | cons p l ih =>
    obtain ⟨k, v⟩ := p
    cases v <;> simp [canonFields, canonField, ih]

theorem filterMap_emitPart_orderedInsert_none (x : String × Option String)
    (hx : emitPart x = none) (s : List (String × Option String)) :
    (List.orderedInsert keyLe x s).filterMap emitPart = s.filterMap emitPart := by
  induction s with
  | nil => simp [List.orderedInsert, List.filterMap, hx]
  | cons y t ih =>
    by_cases h : keyLe x y
    · simp [List.orderedInsert, h, List.filterMap_cons, hx]
    · simp [List.orderedInsert, h, List.filterMap_cons, ih]

theorem orderedInsert_eq_cons (y : String × Option String)
    (s : List (String × Option String)) (h : ∀ w ∈ s, keyLe y w) :
    List.orderedInsert keyLe y s = y :: s := by
  cases s with
  | nil => rfl
  | cons w t => simp [List.orderedInsert, h w (List.mem_cons_self w t)]

theorem filter_orderedInsert (q : (String × Option String) → Bool)
    (y : String × Option String) (s : List (String × Option String))
    (hs : List.Sorted keyLe s) (hq : q y = true) :
    (List.orderedInsert keyLe y s).filter q = List.orderedInsert keyLe y (s.filter q) := by
  induction s with
  | nil => simp [List.orderedInsert, List.filter, hq]
  | cons z t ih =>
    have hzall : ∀ w ∈ t, keyLe z w := (List.sorted_cons.mp hs).1
    have ht : List.Sorted keyLe t := (List.sorted_cons.mp hs).2
    by_cases h : keyLe y z
    · have hyall : ∀ w ∈ t.filter q, keyLe y w := by
        intro w hw
        exact Trans.trans h (hzall w (List.mem_of_mem_filter hw))
      by_cases hz : q z = true
      · simp [List.orderedInsert, h, List.filter_cons, hq, hz]
      · simp only [List.orderedInsert, if_pos h, List.filter_cons, hq, hz,
          Bool.false_eq_true, if_false, if_true]
        rw [orderedInsert_eq_cons y (t.filter q) hyall]
    · by_cases hz : q z = true
      · simp [List.orderedInsert, h, List.filter_cons, hz, ih ht]
      · simp [List.orderedInsert, h, List.filter_cons, hz, ih ht]

theorem filter_orderedInsert_neg (q : (String × Option String) → Bool)
    (y : String × Option String) (s : List (String × Option String))
    (hq : q y = false) :
    (List.orderedInsert keyLe y s).filter q = s.filter q := by
  induction s with
  | nil => simp [List.orderedInsert, List.filter, hq]
  | cons z t ih =>
    by_cases h : keyLe y z
    · simp [List.orderedInsert, h, List.filter_cons, hq]
    · simp [List.orderedInsert, h, List.filter_cons, ih]

theorem filter_insertionSort (q : (String × Option String) → Bool)
    (l : List (String × Option String)) :
    (List.insertionSort keyLe l).filter q = List.insertionSort keyLe (l.filter q) := by
  induction l with
  | nil => rfl
  | cons x l ih =>
    by_cases hq : q x = true
    · rw [show List.insertionSort keyLe (x :: l) =
          List.orderedInsert keyLe x (List.insertionSort keyLe l) from rfl,
        filter_orderedInsert q x _ (List.sorted_insertionSort keyLe l) hq, ih,
        List.filter_cons_of_pos hq]
      rfl
    · rw [show List.insertionSort keyLe (x :: l) =
          List.orderedInsert keyLe x (List.insertionSort keyLe l) from rfl,
        filter_orderedInsert_neg q x _ (by simpa using hq), ih,
        List.filter_cons_of_neg (by simpa using hq)]

theorem filterMap_emitPart_filter (s : List (String × Option String)) :
    s.filterMap emitPart = (s.filter (fun p => p.2.isSome)).filterMap emitPart := by
  induction s with
  | nil => rfl
  | cons p t ih =>
    obtain ⟨k, v⟩ := p
    cases v with
    | none => simpa [List.filterMap_cons, List.filter_cons, emitPart] using ih
    | some s => simp [List.filterMap_cons, List.filter_cons, emitPart, ih]

theorem sortParts_middle_none (A B : List (String × Option String)) (k : String) :
    sortParts (A ++ (k, none) :: B) = sortParts (A ++ B) := by
  unfold sortParts
  rw [filterMap_emitPart_filter, filter_insertionSort,
    filterMap_emitPart_filter (List.insertionSort keyLe (A ++ B)),
    filter_insertionSort]
  have : (A ++ (k, none) :: B).filter (fun p => p.2.isSome) =
      (A ++ B).filter (fun p => p.2.isSome) := by
    simp [List.filter_append, List.filter_cons]
  rw [this]

theorem sorted_perm_nodupKeys_eq :
    ∀ (l₁ l₂ : List (String × Option String)), l₁.Perm l₂ →
      List.Sorted keyLe l₁ → List.Sorted keyLe l₂ →
      (l₁.map Prod.fst).Nodup → l₁ = l₂ := by
  intro l₁
  induction l₁ with
  | nil =>
    intro l₂ hp _ _ _
    exact (hp.symm.eq_nil).symm
  | cons a t₁ ih =>
    intro l₂ hp hs₁ hs₂ hnd
    cases l₂ with
    | nil => exact absurd hp.eq_nil (by simp)
    | cons b t₂ =>
      by_cases hab : a = b
      · subst hab
        have hpt : t₁.Perm t₂ := hp.cons_inv
        have := ih t₂ hpt (List.sorted_cons.mp hs₁).2 (List.sorted_cons.mp hs₂).2
          (by simpa using (List.nodup_cons.mp (by simpa using hnd)).2)
        rw [this]
      · exfalso
        have hain : a ∈ b :: t₂ := hp.subset (List.mem_cons_self a t₁)
        have hbin : b ∈ a :: t₁ := hp.symm.subset (List.mem_cons_self b t₂)
        have hat₂ : a ∈ t₂ := by
          rcases List.mem_cons.mp hain with h | h
          · exact absurd h hab
          · exact h
        have hbt₁ : b ∈ t₁ := by
          rcases List.mem_cons.mp hbin with h | h
          · exact absurd h.symm hab
          · exact h
        have h₁ : keyLe a b := (List.sorted_cons.mp hs₁).1 b hbt₁
        have h₂ : keyLe b a := (List.sorted_cons.mp hs₂).1 a hat₂
        have hkey : a.1 = b.1 :=
          string_data_inj (charsLe_antisymm a.1.data b.1.data h₁ h₂)
        have hnotin : a.1 ∉ t₁.map Prod.fst :=
          (List.nodup_cons.mp (by simpa using hnd)).1
        exact hnotin (hkey ▸ List.mem_map_of_mem Prod.fst hbt₁)

/-! ## C5: key-order independence of `canonicalize` -/

/-- C5.  `canonicalize` is key-order independent: two plain records with
identical key/value sets (i.e. field lists that are permutations of each
other, keys unique as in a JavaScript object) canonicalize to identical
strings regardless of insertion order. -/
theorem canonicalize_key_order_independent (l₁ l₂ : List (String × JVal))
    (hnd : (l₁.map Prod.fst).Nodup) (hp : l₁.Perm l₂) :
    canonicalize (JVal.obj l₁) = canonicalize (JVal.obj l₂) := by
  have hfields : (canonFields l₁).Perm (canonFields l₂) := by
    rw [canonFields_eq_map, canonFields_eq_map]
    exact hp.map _
  have hkeys₁ : (canonFields l₁).map Prod.fst = l₁.map Prod.fst := by
    rw [canonFields_eq_map, List.map_map]
    rfl
  have hsortperm : (List.insertionSort keyLe (canonFields l₁)).Perm
      (List.insertionSort keyLe (canonFields l₂)) :=
    ((List.perm_insertionSort keyLe (canonFields l₁)).trans hfields).trans
      (List.perm_insertionSort keyLe (canonFields l₂)).symm
  have hndsorted : ((List.insertionSort keyLe (canonFields l₁)).map Prod.fst).Nodup := by
    have hperm : ((List.insertionSort keyLe (canonFields l₁)).map Prod.fst).Perm
        (l₁.map Prod.fst) := by
      rw [← hkeys₁]
      exact (List.perm_insertionSort keyLe (canonFields l₁)).map Prod.fst
    exact hperm.nodup_iff.mpr hnd
  have heq : List.insertionSort keyLe (canonFields l₁) =
      List.insertionSort keyLe (canonFields l₂) :=
    sorted_perm_nodupKeys_eq _ _ hsortperm
      (List.sorted_insertionSort keyLe (canonFields l₁))
      (List.sorted_insertionSort keyLe (canonFields l₂)) hndsorted
  simp only [canonicalize, sortParts, heq]

/-- Witness for C5 at the concrete records of the claim:
`canonicalize(\x7ba:1,b:2\x7d) == canonicalize(\x7bb:2,a:1\x7d)`. -/
theorem canonicalize_key_order_independent_witness :
    ([(("a" : String), JVal.num 1), ("b", JVal.num 2)].map Prod.fst).Nodup
    ∧ List.Perm [(("a" : String), JVal.num 1), ("b", JVal.num 2)]
        [("b", JVal.num 2), ("a", JVal.num 1)]
    ∧ canonicalize (JVal.obj [("a", JVal.num 1), ("b", JVal.num 2)]) =
        canonicalize (JVal.obj [("b", JVal.num 2), ("a", JVal.num 1)]) :=
  ⟨by decide, List.Perm.swap _ _ _,
    canonicalize_key_order_independent _ _ (by decide) (List.Perm.swap _ _ _)⟩

/-! ## C6: omission of `undefined` fields and edge cases -/

/-- C6.  `canonicalize` omits fields whose value is `undefined` entirely, at
any position in the record (they are not emitted as `null`); in particular
`canonicalize(\x7ba:1,b:undefined\x7d) == canonicalize(\x7ba:1\x7d)`; and the
edge cases: empty object, empty array, root `null` and root `undefined`. -/
theorem canonicalize_omits_undefined :
    (∀ (f₁ f₂ : List (String × JVal)) (k : String),
      canonicalize (JVal.obj (f₁ ++ (k, JVal.undef) :: f₂)) =
        canonicalize (JVal.obj (f₁ ++ f₂)))
    ∧ canonicalize (JVal.obj [("a", JVal.num 1), ("b", JVal.undef)]) =
        canonicalize (JVal.obj [("a", JVal.num 1)])
    ∧ canonicalize (JVal.obj []) = "\x7b\x7d"
    ∧ canonicalize (JVal.arr []) = "[]"
    ∧ canonicalize JVal.null = "null"
    ∧ canonicalize JVal.undef = "null" := by
  refine ⟨?_, by decide, by decide, by decide, by decide, by decide⟩
  intro f₁ f₂ k
  have hfields : canonFields (f₁ ++ (k, JVal.undef) :: f₂) =
      canonFields f₁ ++ (k, none) :: canonFields f₂ := by
    simp [canonFields_eq_map, canonField]
  have hfields₂ : canonFields (f₁ ++ f₂) = canonFields f₁ ++ canonFields f₂ := by
    simp [canonFields_eq_map]
  simp only [canonicalize, hfields, hfields₂, sortParts_middle_none]

/-! ## Ledger verification lemmas -/

theorem prevAfter_cons (e : AuditEvent) (xs : List AuditEvent) (p : Option String) :
    prevAfter (e :: xs) p = prevAfter xs (some e.hash) := by
  cases xs with
  | nil => simp [prevAfter]
  | cons x t =>
    unfold prevAfter
    rw [List.getLast?_cons_cons]
    cases h : (x :: t).getLast? with
    | none => exact absurd h (by simp)
    | some y => rfl

theorem checkEntries_append (H : String → String) (xs ys : List AuditEvent)
    (i : Nat) (p : Option String) :
    checkEntries H (xs ++ ys) i p =
      if (checkEntries H xs i p).valid = true then
        checkEntries H ys (i + xs.length) (prevAfter xs p)
      else checkEntries H xs i p := by
  induction xs generalizing i p with
  | nil => simp [checkEntries, prevAfter]
  | cons e xs ih =>
    cases p with
    | none =>
      by_cases h₁ : computeHash H (payloadObj e) = e.hash
      · by_cases h₂ : e.previousHash = "GENESIS"
        · simp only [List.cons_append, checkEntries, h₁, h₂, ne_eq,
            not_true_eq_false, if_false, ite_false, List.append_eq]
          rw [prevAfter_cons, List.length_cons]
          have harith : i + (xs.length + 1) = (i + 1) + xs.length := by omega
          rw [harith]
          exact ih (i + 1) (some e.hash)
        · simp [checkEntries, h₁, h₂]
      · simp [checkEntries, h₁]
    | some ph =>
      by_cases h₁ : computeHash H (payloadObj e) = e.hash
      · by_cases h₂ : e.previousHash = ph
        · simp only [List.cons_append, checkEntries, h₁, h₂, ne_eq,
            not_true_eq_false, if_false, ite_false, List.append_eq]
          rw [prevAfter_cons, List.length_cons]
          have harith : i + (xs.length + 1) = (i + 1) + xs.length := by omega
          rw [harith]
          exact ih (i + 1) (some e.hash)
        · simp [checkEntries, h₁, h₂]
      · simp [checkEntries, h₁]

/-! ## C1: tamper evidence for single-field mutations -/

/-- C1 (amended).  For every valid chain (given newest-first, shown here
with the mutated position exposed as `pre ++ e :: post` oldest-first) and
every single-field mutation `e'` of the entry `e` that changes the stored
`hash` (leaving the payload intact) or changes the canonical payload
(leaving the stored `hash` intact), `verifyLedger` reports `valid = false`
with `errorIndex` equal to the mutated entry's oldest-first position and a
hash-mismatch error, provided the digest is collision-free (injective). -/
theorem verifyLedger_detects_single_field_mutation (H : String → String)
    (hinj : Function.Injective H) (pre post : List AuditEvent) (e e' : AuditEvent)
    (hvalid : (verifyLedger H ((pre ++ e :: post).reverse)).valid = true)
    (hmut : (payloadObj e' = payloadObj e ∧ e'.hash ≠ e.hash) ∨
      (canonicalize (payloadObj e') ≠ canonicalize (payloadObj e) ∧ e'.hash = e.hash)) :
    verifyLedger H ((pre ++ e' :: post).reverse) =
      ⟨false, (pre.length : Int),
        some ("Hash Mismatch at Block " ++ toString pre.length ++ ". Stored: " ++
          substringTo e'.hash 8 ++ "..., Calc: " ++
          substringTo (computeHash H (payloadObj e')) 8 ++ "...")⟩ := by
  have hlen : ((pre ++ e :: post).reverse).length ≠ 0 := by simp
  rw [verifyLedger, if_neg hlen, List.reverse_reverse] at hvalid
  have hpre : (checkEntries H pre 0 none).valid = true := by
    by_contra hc
    rw [checkEntries_append, if_neg hc] at hvalid
    exact hc hvalid
  have hrest : (checkEntries H (e :: post) pre.length (prevAfter pre none)).valid = true := by
    rw [checkEntries_append, if_pos hpre] at hvalid
    simpa using hvalid
  have hhash : computeHash H (payloadObj e) = e.hash := by
    by_contra hc
    simp [checkEntries, hc] at hrest
  have hne : computeHash H (payloadObj e') ≠ e'.hash := by
    rcases hmut with ⟨hpl, hh⟩ | ⟨hcanon, hh⟩
    · rw [hpl, hhash]
      exact fun h => hh h.symm
    · intro h
      rw [hh, ← hhash] at h
      exact hcanon (hinj h)
  have hlen' : ((pre ++ e' :: post).reverse).length ≠ 0 := by simp
  rw [verifyLedger, if_neg hlen', List.reverse_reverse, checkEntries_append,
    if_pos hpre]
  simp only [checkEntries, hne, ne_eq, not_false_eq_true, if_true, ite_true,
    Nat.zero_add]

/-- Counterexample to C1 as stated: mutating the single stored field `id`
of the only entry of a valid 1-entry chain (the `id` field is not part of
the hashed payload) leaves `verifyLedger` reporting `valid = true`. -/
theorem verifyLedger_id_mutation_counterexample :
    (verifyLedger idDigest [genesisEvent]).valid = true
    ∧ ({ genesisEvent with id := "EVT-MUTATED" } : AuditEvent).id ≠ genesisEvent.id
    ∧ (verifyLedger idDigest [{ genesisEvent with id := "EVT-MUTATED" }]).valid = true :=
  ⟨by decide, by decide, by decide⟩

/-- Witness for C1 at a concrete input: the valid 1-entry genesis chain
with the stored `hash` replaced by an unrelated value fails verification at
position 0 with the hash-mismatch error. -/
theorem verifyLedger_detects_single_field_mutation_witness :
    (verifyLedger idDigest (([] ++ genesisEvent :: []).reverse)).valid = true
    ∧ (payloadObj { genesisEvent with hash := unrelatedHash } = payloadObj genesisEvent
        ∧ ({ genesisEvent with hash := unrelatedHash } : AuditEvent).hash ≠ genesisEvent.hash)
    ∧ verifyLedger idDigest (([] ++ ({ genesisEvent with hash := unrelatedHash } : AuditEvent) :: []).reverse) =
        ⟨false, (([] : List AuditEvent).length : Int),
          some ("Hash Mismatch at Block " ++ toString ([] : List AuditEvent).length ++
            ". Stored: " ++
            substringTo ({ genesisEvent with hash := unrelatedHash } : AuditEvent).hash 8 ++
            "..., Calc: " ++
            substringTo (computeHash idDigest
              (payloadObj { genesisEvent with hash := unrelatedHash })) 8 ++ "...")⟩ :=
  ⟨by decide, ⟨rfl, by decide⟩,
    verifyLedger_detects_single_field_mutation idDigest (fun a b h => h) [] []
      genesisEvent { genesisEvent with hash := unrelatedHash } (by decide)
      (Or.inl ⟨rfl, by decide⟩)⟩

/-! ## C3: the genesis law for single-entry chains -/

/-- C3.  A single-entry chain passes `verifyLedger` if and only if its
`previousHash` is exactly `GENESIS` and its stored `hash` equals the
recomputed digest of its payload (`payloadObj` defaults absent
rationale/signature to the empty string). -/
theorem verifyLedger_singleton_iff (H : String → String) (e : AuditEvent) :
    (verifyLedger H [e]).valid = true ↔
      (e.previousHash = "GENESIS" ∧ e.hash = computeHash H (payloadObj e)) := by
  by_cases h₁ : computeHash H (payloadObj e) = e.hash
  · by_cases h₂ : e.previousHash = "GENESIS"
    · simp [verifyLedger, checkEntries, h₁, h₂]
    · simp [verifyLedger, checkEntries, h₁, h₂]
  · simp only [verifyLedger, checkEntries, h₁]
    simp [h₁]
    exact fun _ h => h₁ h.symm

/-! ## C4: the chain-break scenario on the golden-path chain -/

/-- Counterexample to C4 as stated: replacing the second golden-path
entry's `previousHash` with an arbitrary unrelated valid-looking hash does
make `verifyLedger` fail with `errorIndex = 1`, but with the hash-mismatch
message, not the chain-break message the claim asserts (since
`previousHash` is part of the hashed payload, the digest check at step (b)
fires before the linkage check at step (d)). -/
theorem goldenChain_prevHash_tamper_counterexample :
    (verifyLedger idDigest [goldenTampered2, genesisEvent]).valid = false
    ∧ (verifyLedger idDigest [goldenTampered2, genesisEvent]).errorIndex = 1
    ∧ (verifyLedger idDigest [goldenTampered2, genesisEvent]).errorMsg ≠
        some ("Chain Broken at Block 1. PreviousHash " ++
          substringTo goldenTampered2.previousHash 8 ++
          "... does not match Block 0 Hash " ++
          substringTo genesisEvent.hash 8 ++ "...")
    ∧ (verifyLedger idDigest [goldenTampered2, genesisEvent]).errorMsg =
        some ("Hash Mismatch at Block 1. Stored: " ++
          substringTo goldenTampered2.hash 8 ++ "..., Calc: " ++
          substringTo (computeHash idDigest (payloadObj goldenTampered2)) 8 ++ "...") :=
  ⟨by decide, by decide, by decide, by decide⟩

/-- C4 (amended).  For the golden-path 2-entry chain, replacing the second
entry's `previousHash` with an arbitrary unrelated valid-looking hash makes
`verifyLedger` return `valid = false` with `errorIndex = 1` and a
hash-mismatch reason (the digest check, which covers `previousHash` as part
of the hashed payload, fires before the linkage check). -/
theorem goldenChain_prevHash_tamper_hash_mismatch :
    (verifyLedger idDigest goldenChain).valid = true
    ∧ verifyLedger idDigest [goldenTampered2, genesisEvent] =
      ⟨false, 1, some ("Hash Mismatch at Block 1. Stored: " ++
        substringTo goldenTampered2.hash 8 ++ "..., Calc: " ++
        substringTo (computeHash idDigest (payloadObj goldenTampered2)) 8 ++ "...")⟩ :=
  ⟨by decide, by decide⟩

/-! ## Append-queue lemmas -/

theorem drainList_queue_irrel (Hf : String → Option String) (clock : Nat → String) :
    ∀ (q : List EventDraft) (s : AppState) (x : List EventDraft),
      drainList Hf clock q { s with queue := x } = drainList Hf clock q s := by
  intro q
  induction q with
  | nil => intro s x; rfl
  | cons d t ih =>
    intro s x
    simp only [drainList]
    cases hH : Hf (canonicalize (draftPayload d s.latestHash (clock s.now))) with
    | none => rfl
    | some h =>
      dsimp only
      exact ih { s with
        auditLog := mkFullEvent d (clock s.now) h s.latestHash :: s.auditLog,
        latestHash := h,
        now := s.now + 1 } x

theorem drainList_bfos (Hf : String → Option String) (clock : Nat → String) :
    ∀ (q : List EventDraft) (s : AppState), (drainList Hf clock q s).bfos = s.bfos := by
  intro q
  induction q with
  | nil => intro s; rfl
  | cons d t ih =>
    intro s
    simp only [drainList]
    cases hH : Hf (canonicalize (draftPayload d s.latestHash (clock s.now))) with
    | none => rfl
    | some h => exact ih _

theorem drainList_append (Hf : String → Option String) (clock : Nat → String) :
    ∀ (q₁ q₂ : List EventDraft) (s : AppState),
      (drainList Hf clock q₁ s).systemStatus ≠ SystemStatus.HALTED →
      drainList Hf clock (q₁ ++ q₂) s =
        drainList Hf clock q₂ (drainList Hf clock q₁ s) := by
  intro q₁
  induction q₁ with
  | nil =>
    intro q₂ s _
    exact (drainList_queue_irrel Hf clock q₂ s []).symm
  | cons d t ih =>
    intro q₂ s hok
    simp only [drainList] at hok ⊢
    cases hH : Hf (canonicalize (draftPayload d s.latestHash (clock s.now))) with
    | none =>
      rw [hH] at hok
      exact absurd rfl hok
    | some h =>
      rw [hH] at hok
      exact ih q₂ _ hok

/-! ## C2: order preservation of the append queue -/

/-- C2.  Submitting drafts `d₁` then `d₂` through `addAuditEvent` from an
online, idle state with an empty queue yields a chain in which `d₁`'s entry
precedes `d₂`'s (the newest-first log gains `e₂ :: e₁ ::` on top), each
drained entry's `previousHash` is captured from the chain head current when
it is processed (`st.latestHash` for `e₁`, `e₁`'s new hash for `e₂`), and
the head is advanced to each entry's hash before the next is processed, so
`e₂.previousHash = e₁.hash` and the final head is `e₂.hash`. -/
theorem appendQueue_preserves_order (Hf : String → Option String)
    (clock : Nat → String) (st : AppState) (d₁ d₂ : EventDraft) (h₁ h₂ : String)
    (hon : st.systemStatus = SystemStatus.ONLINE)
    (hproc : st.isProcessing = false)
    (hq : st.queue = [])
    (hh₁ : Hf (canonicalize (draftPayload d₁ st.latestHash (clock st.now))) = some h₁)
    (hh₂ : Hf (canonicalize (draftPayload d₂ h₁ (clock (st.now + 1)))) = some h₂) :
    (addAuditEvent Hf clock (addAuditEvent Hf clock st d₁) d₂).auditLog =
        mkFullEvent d₂ (clock (st.now + 1)) h₂ h₁ ::
          mkFullEvent d₁ (clock st.now) h₁ st.latestHash :: st.auditLog
    ∧ (mkFullEvent d₂ (clock (st.now + 1)) h₂ h₁).previousHash =
        (mkFullEvent d₁ (clock st.now) h₁ st.latestHash).hash
    ∧ (mkFullEvent d₁ (clock st.now) h₁ st.latestHash).previousHash = st.latestHash
    ∧ (addAuditEvent Hf clock (addAuditEvent Hf clock st d₁) d₂).latestHash =
        (mkFullEvent d₂ (clock (st.now + 1)) h₂ h₁).hash := by
  have hstep : addAuditEvent Hf clock st d₁ =
      { st with
          auditLog := mkFullEvent d₁ (clock st.now) h₁ st.latestHash :: st.auditLog,
          queue := [],
          latestHash := h₁,
          isProcessing := false,
          now := st.now + 1 } := by
    simp [addAuditEvent, processQueue, drainList, hon, hproc, hq, hh₁]
  rw [hstep]
  have hstep₂ : addAuditEvent Hf clock
      ({ st with
          auditLog := mkFullEvent d₁ (clock st.now) h₁ st.latestHash :: st.auditLog,
          queue := [],
          latestHash := h₁,
          isProcessing := false,
          now := st.now + 1 } : AppState) d₂ =
      { st with
          auditLog := mkFullEvent d₂ (clock (st.now + 1)) h₂ h₁ ::
            mkFullEvent d₁ (clock st.now) h₁ st.latestHash :: st.auditLog,
          queue := [],
          latestHash := h₂,
          isProcessing := false,
          now := st.now + 2 } := by
    simp [addAuditEvent, processQueue, drainList, hon, hh₂]
  rw [hstep₂]
  exact ⟨rfl, rfl, rfl, rfl⟩

/-- Witness for C2 at a concrete input: two fixture drafts submitted to the
online genesis state through the always-succeeding digest. -/
theorem appendQueue_preserves_order_witness :
    stateInit.systemStatus = SystemStatus.ONLINE
    ∧ stateInit.isProcessing = false
    ∧ stateInit.queue = []
    ∧ (addAuditEvent someDigest tickClock
          (addAuditEvent someDigest tickClock stateInit draftA) draftB).auditLog =
        mkFullEvent draftB (tickClock (stateInit.now + 1))
            (canonicalize (draftPayload draftB
              (canonicalize (draftPayload draftA stateInit.latestHash (tickClock stateInit.now)))
              (tickClock (stateInit.now + 1))))
            (canonicalize (draftPayload draftA stateInit.latestHash (tickClock stateInit.now))) ::
          mkFullEvent draftA (tickClock stateInit.now)
            (canonicalize (draftPayload draftA stateInit.latestHash (tickClock stateInit.now)))
            stateInit.latestHash :: stateInit.auditLog
    ∧ (mkFullEvent draftB (tickClock (stateInit.now + 1))
          (canonicalize (draftPayload draftB
            (canonicalize (draftPayload draftA stateInit.latestHash (tickClock stateInit.now)))
            (tickClock (stateInit.now + 1))))
          (canonicalize (draftPayload draftA stateInit.latestHash (tickClock stateInit.now)))).previousHash =
        (mkFullEvent draftA (tickClock stateInit.now)
          (canonicalize (draftPayload draftA stateInit.latestHash (tickClock stateInit.now)))
          stateInit.latestHash).hash :=
  ⟨rfl, rfl, rfl,
    (appendQueue_preserves_order someDigest tickClock stateInit draftA draftB
      (canonicalize (draftPayload draftA stateInit.latestHash (tickClock stateInit.now)))
      (canonicalize (draftPayload draftB
        (canonicalize (draftPayload draftA stateInit.latestHash (tickClock stateInit.now)))
        (tickClock (stateInit.now + 1))))
      rfl rfl rfl rfl rfl).1,
    (appendQueue_preserves_order someDigest tickClock stateInit draftA draftB
      (canonicalize (draftPayload draftA stateInit.latestHash (tickClock stateInit.now)))
      (canonicalize (draftPayload draftB
        (canonicalize (draftPayload draftA stateInit.latestHash (tickClock stateInit.now)))
        (tickClock (stateInit.now + 1))))
      rfl rfl rfl rfl rfl).2.1⟩

/-! ## C7: systemic halt on digest failure -/

/-- C7.  If, while the queue drains, the digest computation throws for some
entry `d` (the drafts `q₁` before it all hash successfully — expressed as
the drain of `q₁` not halting — and `Hf` returns `none` on `d`'s payload at
the state the drain has then reached), the whole system transitions to
`HALTED` with reason `HASHING_PIPELINE_FAILURE`, no entry past the failure
is appended and the commitment objects are untouched; and every halted
state refuses all subsequent `addAuditEvent` and `addBFO` calls, leaving
the state (ledger and commitment objects included) unchanged. -/
theorem haltOnDigestFailure (Hf : String → Option String) (clock : Nat → String)
    (st : AppState) (q₁ q₂ : List EventDraft) (d : EventDraft)
    (st' : AppState) (d' : EventDraft) (b : BFOObject)
    (hon : st.systemStatus = SystemStatus.ONLINE)
    (hproc : st.isProcessing = false)
    (hq : st.queue = q₁ ++ d :: q₂)
    (hok : (drainList Hf clock q₁ { st with isProcessing := true }).systemStatus ≠
      SystemStatus.HALTED)
    (hfail : Hf (canonicalize (draftPayload d
        (drainList Hf clock q₁ { st with isProcessing := true }).latestHash
        (clock (drainList Hf clock q₁ { st with isProcessing := true }).now))) = none)
    (hst' : st'.systemStatus = SystemStatus.HALTED) :
    (processQueue Hf clock st).systemStatus = SystemStatus.HALTED
    ∧ (processQueue Hf clock st).haltReason = "HASHING_PIPELINE_FAILURE"
    ∧ (processQueue Hf clock st).auditLog =
        (drainList Hf clock q₁ { st with isProcessing := true }).auditLog
    ∧ (processQueue Hf clock st).bfos = st.bfos
    ∧ addAuditEvent Hf clock st' d' = st'
    ∧ addBFO st' b = st' := by
  have hdrain : drainList Hf clock st.queue { st with isProcessing := true } =
      { (drainList Hf clock q₁ { st with isProcessing := true }) with
          queue := q₂,
          systemStatus := SystemStatus.HALTED,
          haltReason := "HASHING_PIPELINE_FAILURE" } := by
    have e₁ : drainList Hf clock st.queue { st with isProcessing := true } =
        drainList Hf clock (q₁ ++ d :: q₂) { st with isProcessing := true } :=
      congrArg
        (fun (q : List EventDraft) => drainList Hf clock q { st with isProcessing := true }) hq
    rw [e₁, drainList_append Hf clock q₁ (d :: q₂) _ hok]
    simp only [drainList, hfail]
  have hpq : processQueue Hf clock st =
      { (drainList Hf clock q₁ { st with isProcessing := true }) with
          queue := q₂,
          systemStatus := SystemStatus.HALTED,
          haltReason := "HASHING_PIPELINE_FAILURE",
          isProcessing := false } := by
    rw [processQueue, if_neg (by simp [hproc, hon])]
    rw [hdrain]
  refine ⟨by rw [hpq], by rw [hpq], by rw [hpq], ?_, ?_, ?_⟩
  · rw [hpq]
    show (drainList Hf clock q₁ { st with isProcessing := true }).bfos = st.bfos
    rw [drainList_bfos]
  · rw [addAuditEvent, if_pos hst']
  · rw [addBFO, if_pos hst']

/-- Witness for C7 at a concrete input: draining the queued fixture draft
through the always-throwing digest halts the system, and the halted state
refuses a further submit and a further commit. -/
theorem haltOnDigestFailure_witness :
    stateQueued.systemStatus = SystemStatus.ONLINE
    ∧ stateQueued.isProcessing = false
    ∧ stateQueued.queue = [] ++ draftA :: []
    ∧ (drainList failDigest tickClock [] { stateQueued with isProcessing := true }).systemStatus ≠
        SystemStatus.HALTED
    ∧ failDigest (canonicalize (draftPayload draftA
          (drainList failDigest tickClock [] { stateQueued with isProcessing := true }).latestHash
          (tickClock (drainList failDigest tickClock []
            { stateQueued with isProcessing := true }).now))) = none
    ∧ ({ stateInit with systemStatus := SystemStatus.HALTED } : AppState).systemStatus =
        SystemStatus.HALTED
    ∧ (processQueue failDigest tickClock stateQueued).systemStatus = SystemStatus.HALTED
    ∧ (processQueue failDigest tickClock stateQueued).haltReason = "HASHING_PIPELINE_FAILURE"
    ∧ addAuditEvent failDigest tickClock
        { stateInit with systemStatus := SystemStatus.HALTED } draftB =
        { stateInit with systemStatus := SystemStatus.HALTED }
    ∧ addBFO { stateInit with systemStatus := SystemStatus.HALTED } bfoFixture =
        { stateInit with systemStatus := SystemStatus.HALTED } := by
  have h := haltOnDigestFailure failDigest tickClock stateQueued [] [] draftA
    { stateInit with systemStatus := SystemStatus.HALTED } draftB bfoFixture
    rfl rfl rfl (by decide) rfl rfl
  exact ⟨rfl, rfl, rfl, by decide, rfl, rfl, h.1, h.2.1, h.2.2.2.2.1, h.2.2.2.2.2⟩

/-! ## C8: keypair fallback on deserialization failure -/

/-- C8.  `generateKeyPair` with `forceNew = false` and persisted key
material that fails to deserialize (`parse s = none`) never fails hard: it
returns the freshly generated keypair, persists its serialization, and logs
the corruption fallback before the new-identity log line. -/
theorem generateKeyPair_fallback_on_corruption {KP : Type}
    (parse : String → Option KP) (fresh : KP) (serialize : KP → String)
    (s : String) (hparse : parse s = none) :
    generateKeyPair parse fresh serialize false (some s) =
      (fresh, some (serialize fresh),
        ["e8-Crypto: Key Corruption Detected. Regenerating.",
         "e8-Crypto: Generated New Identity"]) := by
  simp [generateKeyPair, hparse]

/-- Witness for C8 at a concrete input: corrupted stored material and a
never-succeeding parser. -/
theorem generateKeyPair_fallback_on_corruption_witness :
    (fun _ : String => (none : Option String)) "garbage" = none
    ∧ generateKeyPair (fun _ : String => (none : Option String)) "freshKeypair"
        (fun kp => kp) false (some "garbage") =
      ("freshKeypair", some "freshKeypair",
        ["e8-Crypto: Key Corruption Detected. Regenerating.",
         "e8-Crypto: Generated New Identity"]) :=
  ⟨rfl, generateKeyPair_fallback_on_corruption (fun _ => none) "freshKeypair"
    (fun kp => kp) "garbage" rfl⟩

/-! ## C9: council quorum at commitment finalization -/

/-- C9 (code bug evidence).  In council governance mode with the 3
registered signers, `handleCommit`: (a) refuses finalization with fewer
than 2 recorded signatures (no commitment object, no approval event); but
(b) also refuses it with exactly 2 recorded signatures when the safety
interlock is unset — and the council flow of the component never sets the
interlock (the interlock checkbox is rendered only in sole-fiduciary mode),
so council finalization never succeeds, contradicting the claim; (c) the
quorum logic itself would accept 2 of 3 signatures were the interlock set,
pinpointing the interlock guard as the defect. -/
theorem handleCommit_council_quorum_interlock_bug :
    handleCommit idDigest (fun s => some s) "2024-01-01T00:00:00.000Z" "BFO-1"
      { analysis := some "MEMO", pendingAuthority := some "JOINT_CONSENSUS",
        hasUserKeys := true, safetyInterlock := true,
        governanceMode := GovernanceMode.JOINT_COUNCIL, soleSignature := "",
        councilSignatures := [
          { id := "1", name := "Chair (You)", signed := true, sig := "AAA" },
          { id := "2", name := "Member A", signed := false, sig := "" },
          { id := "3", name := "Member B", signed := false, sig := "" }],
        intentInput := "intent", activeReferenceId := none } = none
    ∧ handleCommit idDigest (fun s => some s) "2024-01-01T00:00:00.000Z" "BFO-1"
      { analysis := some "MEMO", pendingAuthority := some "JOINT_CONSENSUS",
        hasUserKeys := true, safetyInterlock := false,
        governanceMode := GovernanceMode.JOINT_COUNCIL, soleSignature := "",
        councilSignatures := [
          { id := "1", name := "Chair (You)", signed := true, sig := "AAA" },
          { id := "2", name := "Member A", signed := true, sig := "BBB" },
          { id := "3", name := "Member B", signed := false, sig := "" }],
        intentInput := "intent", activeReferenceId := none } = none
    ∧ (handleCommit idDigest (fun s => some s) "2024-01-01T00:00:00.000Z" "BFO-1"
      { analysis := some "MEMO", pendingAuthority := some "JOINT_CONSENSUS",
        hasUserKeys := true, safetyInterlock := true,
        governanceMode := GovernanceMode.JOINT_COUNCIL, soleSignature := "",
        councilSignatures := [
          { id := "1", name := "Chair (You)", signed := true, sig := "AAA" },
          { id := "2", name := "Member A", signed := true, sig := "BBB" },
          { id := "3", name := "Member B", signed := false, sig := "" }],
        intentInput := "intent", activeReferenceId := none }).isSome = true
    ∧ (handleCommit idDigest (fun s => some s) "2024-01-01T00:00:00.000Z" "BFO-1"
      { analysis := some "MEMO", pendingAuthority := some "JOINT_CONSENSUS",
        hasUserKeys := true, safetyInterlock := true,
        governanceMode := GovernanceMode.JOINT_COUNCIL, soleSignature := "",
        councilSignatures := [
          { id := "1", name := "Chair (You)", signed := true, sig := "AAA" },
          { id := "2", name := "Member A", signed := true, sig := "BBB" },
          { id := "3", name := "Member B", signed := true, sig := "CCC" }],
        intentInput := "intent", activeReferenceId := none }).isSome = true := by
  refine ⟨rfl, rfl, rfl, rfl⟩

/-! ## C10: the wipe leaves the identity keypair intact -/

/-- C10.  `persistence.clearAll` removes exactly the ledger,
commitment-object and asset storage keys and no other key; in particular
the persisted identity keypair survives both `clearAll` and the
`forceRestart` emergency-reset path (which additionally removes only the
disclaimer flag), so the same signing identity is reused after a wipe. -/
theorem clearAll_preserves_identity_key (s : Store) (k : String) :
    (clearAll s k =
      if k = AUDIT_LOG_KEY ∨ k = BFOS_KEY ∨ k = ASSETS_KEY then none else s k)
    ∧ clearAll s KEY_STORAGE_NAME = s KEY_STORAGE_NAME
    ∧ forceRestart s KEY_STORAGE_NAME = s KEY_STORAGE_NAME := by
  refine ⟨?_, ?_, ?_⟩
  · by_cases h₁ : k = AUDIT_LOG_KEY
    · simp [clearAll, removeItem, h₁, AUDIT_LOG_KEY, BFOS_KEY, ASSETS_KEY]
    · by_cases h₂ : k = BFOS_KEY
      · simp [clearAll, removeItem, h₁, h₂, BFOS_KEY]
      · by_cases h₃ : k = ASSETS_KEY
        · simp [clearAll, removeItem, h₁, h₂, h₃, ASSETS_KEY]
        · simp [clearAll, removeItem, h₁, h₂, h₃]
  · simp [clearAll, removeItem, KEY_STORAGE_NAME, AUDIT_LOG_KEY, BFOS_KEY, ASSETS_KEY]
  · simp [forceRestart, clearAll, removeItem, KEY_STORAGE_NAME, AUDIT_LOG_KEY,
      BFOS_KEY, ASSETS_KEY, DISCLAIMER_KEY]
